import Mathlib

/-!
Shallow embedding of the flowchart construction engine in
`backend/services/flowchart_builder.py` (classes `BaseFlowchartBuilder`,
`PythonFlowchartBuilder`, `RegexFlowchartBuilder` and the dispatcher
`build_flowchart`), together with proofs settling the frozen claims.

Python strings are modelled as `List Char` (`Str`); Python `int` as `Int`
(complexity scores never overflow in the modelled fragment).  The Python
AST fragment actually consumed by `PythonFlowchartBuilder.process_body`
is modelled by the inductive type `Stmt`; expression subtrees (condition
tests, return values) are abstracted as their `ast.unparse` text plus a
`Nat` recording the score contribution (`ast.BoolOp` / `ast.With` /
`ast.ExceptHandler` occurrences) of unmodelled substructure, which is
what `calculate_complexity`'s `ast.walk` sees of them.  `ast.parse` is
not re-implemented: the dispatcher's input is a `ParseResult`, either a
parsed module body (`ok`) or a `SyntaxError` outcome carrying the raw
source text (`synErr`), exactly separating the two arms of the
`try/except SyntaxError` in `build_flowchart`.  The external
`groq_analyze_line_complexities` collaborator is modelled as a map
parameter `Str → Option Int` (it fails open and never raises).
-/

namespace Flow

/-- Python `str`, modelled as a list of characters. -/
abbrev Str := List Char

/-- Model of `backend/models/flowchart_models.py::Node` (the fields the engine sets). -/
structure Node where
  id : Str
  label : Str
  type : Str
  complexity : Str
  complexity_score : Int
deriving Repr, DecidableEq

/-- Model of `backend/models/flowchart_models.py::Edge`. -/
structure Edge where
  from_node : Str
  to_node : Str
  label : Option Str
deriving Repr, DecidableEq

/-- Model of `backend/models/flowchart_models.py::Flowchart`. -/
structure Flowchart where
  nodes : List Node
  edges : List Edge
deriving Repr, DecidableEq

/-- The mutable accumulator of `BaseFlowchartBuilder.__init__`. -/
structure BuilderState where
  nodes : List Node
  edges : List Edge
  node_counter : Nat
deriving Repr, DecidableEq

/-- A fresh builder (`nodes = []`, `edges = []`, `node_counter = 0`). -/
def initState : BuilderState := ⟨[], [], 0⟩

/-! ### Decimal rendering of the node counter (the f-string `f"node_{n}"`) -/

/-- The decimal digit character for `d % 10`, as Python's `str(int)` renders it. -/
def digitChar (d : Nat) : Char :=
  match d with
  | 0 => '0' | 1 => '1' | 2 => '2' | 3 => '3' | 4 => '4'
  | 5 => '5' | 6 => '6' | 7 => '7' | 8 => '8' | _ => '9'

/-- Fuel-driven decimal rendering (structural, hence kernel-reducible). -/
def natCharsAux (fuel n : Nat) : List Char :=
  match fuel with
  | 0 => []
  | fuel + 1 =>
    if n < 10 then [digitChar n]
    else natCharsAux fuel (n / 10) ++ [digitChar (n % 10)]

/-- Decimal rendering of a natural number (model of Python's `str(n)` /
`f"{n}"`); `n` itself is always enough fuel. -/
def natChars (n : Nat) : List Char := natCharsAux (n + 1) n

/-- Model of `BaseFlowchartBuilder._create_id`'s rendering: `f"node_{n}"`. -/
def mkId (n : Nat) : Str := "node_".data ++ natChars n

/-- The numeric value of a digit character (inverse of `digitChar`). -/
def digitVal (c : Char) : Nat :=
  match c with
  | '0' => 0 | '1' => 1 | '2' => 2 | '3' => 3 | '4' => 4
  | '5' => 5 | '6' => 6 | '7' => 7 | '8' => 8 | _ => 9

/-- Parse a digit string as a natural number (model of Python's `int(s)` on the
digit strings produced by `_create_id`). -/
def parseNat (cs : List Char) : Nat :=
  cs.foldl (fun a c => a * 10 + digitVal c) 0

/-- Python `s.split(c)`. -/
def splitOnChar (c : Char) (cs : List Char) : List (List Char) :=
  match cs with
  | [] => [[]]
  | x :: xs =>
    if x = c then [] :: splitOnChar c xs
    else
      match splitOnChar c xs with
      | [] => [[x]]
      | p :: ps => (x :: p) :: ps

/-- Model of `int(last_true.split('_')[1])` from line 61 of the source. -/
def idNum (s : Str) : Nat :=
  parseNat ((splitOnChar '_' s).getD 1 [])

/-! ### Round-trip facts about `mkId` / `idNum` -/

theorem digitChar_ne_underscore (d : Nat) : digitChar d ≠ '_' := by
  unfold digitChar
  split <;> decide

theorem natCharsAux_no_underscore (fuel : Nat) :
    ∀ n, n < fuel → '_' ∉ natCharsAux fuel n := by
  induction fuel with
  | zero => intro n h; omega
  | succ fuel ih =>
    intro n hn
    unfold natCharsAux
    split
    · simp only [List.mem_singleton]
      exact fun h => digitChar_ne_underscore n h.symm
    · rename_i h
      intro hmem
      rcases List.mem_append.1 hmem with h1 | h2
      · exact ih (n / 10) (by omega) h1
      · simp only [List.mem_singleton] at h2
        exact digitChar_ne_underscore _ h2.symm

theorem natChars_no_underscore (n : Nat) : '_' ∉ natChars n :=
  natCharsAux_no_underscore (n + 1) n (by omega)

theorem splitOnChar_append_of_not_mem (c : Char) (xs ys : List Char)
    (hx : c ∉ xs) :
    splitOnChar c (xs ++ c :: ys) = xs :: splitOnChar c ys := by
  induction xs with
  | nil => simp [splitOnChar]
  | cons a as ih =>
    have hac : a ≠ c := fun h => hx (h ▸ List.mem_cons_self a as)
    have has : c ∉ as := fun h => hx (List.mem_cons_of_mem a h)
    show splitOnChar c (a :: (as ++ c :: ys)) = _
    rw [splitOnChar.eq_2, if_neg hac, ih has]

theorem splitOnChar_of_not_mem (c : Char) (xs : List Char) (hx : c ∉ xs) :
    splitOnChar c xs = [xs] := by
  induction xs with
  | nil => simp [splitOnChar]
  | cons a as ih =>
    have hac : a ≠ c := fun h => hx (h ▸ List.mem_cons_self a as)
    have has : c ∉ as := fun h => hx (List.mem_cons_of_mem a h)
    rw [splitOnChar.eq_2, if_neg hac, ih has]

theorem digitVal_digitChar (d : Nat) (h : d < 10) : digitVal (digitChar d) = d := by
  interval_cases d <;> decide

theorem parseNat_append (xs ys : List Char) :
    parseNat (xs ++ ys) = ys.foldl (fun a c => a * 10 + digitVal c) (parseNat xs) := by
  simp [parseNat, List.foldl_append]

theorem parseNat_natCharsAux (fuel : Nat) :
    ∀ n, n < fuel → parseNat (natCharsAux fuel n) = n := by
  induction fuel with
  | zero => intro n h; omega
  | succ fuel ih =>
    intro n hn
    unfold natCharsAux
    split
    · rename_i h
      simp [parseNat, digitVal_digitChar n h]
    · rename_i h
      rw [parseNat_append, ih (n / 10) (by omega)]
      simp [digitVal_digitChar (n % 10) (Nat.mod_lt n (by norm_num))]
      omega

theorem parseNat_natChars (n : Nat) : parseNat (natChars n) = n :=
  parseNat_natCharsAux (n + 1) n (by omega)

theorem idNum_mkId (n : Nat) : idNum (mkId n) = n := by
  have : splitOnChar '_' (mkId n) = ["node".data, natChars n] := by
    have h1 : mkId n = "node".data ++ '_' :: natChars n := rfl
    rw [h1, splitOnChar_append_of_not_mem _ _ _ (by decide),
      splitOnChar_of_not_mem _ _ (natChars_no_underscore n)]
  simp [idNum, this, parseNat_natChars]

/-- Distinct counters give distinct ids (decimal rendering is injective). -/
theorem mkId_injective : Function.Injective mkId := by
  intro a b h
  have := idNum_mkId a
  rw [h, idNum_mkId] at this
  exact this.symm

/-! ### `BaseFlowchartBuilder` methods -/

/-- Model of `BaseFlowchartBuilder._get_bucket`. -/
def getBucket (score : Int) : Str :=
  if score ≤ 5 then "low".data
  else if score ≤ 10 then "medium".data
  else "high".data

/-- Model of `BaseFlowchartBuilder._add_node`: allocates the next id, computes the
bucket, appends the node, returns the new id and state. -/
def addNode (st : BuilderState) (label : Str) (type : Str)
    (complexity_score : Int) : Str × BuilderState :=
  let counter := st.node_counter + 1
  let node_id := mkId counter
  (node_id,
   { nodes := st.nodes ++
       [⟨node_id, label, type, getBucket complexity_score, complexity_score⟩],
     edges := st.edges,
     node_counter := counter })

/-- Model of `BaseFlowchartBuilder._add_edge`. -/
def addEdge (st : BuilderState) (from_id to_id : Str) (label : Option Str) :
    BuilderState :=
  { st with edges := st.edges ++ [⟨from_id, to_id, label⟩] }

/-- Model of `BaseFlowchartBuilder.get_flowchart`. -/
def getFlowchart (st : BuilderState) : Flowchart := ⟨st.nodes, st.edges⟩

/-! ### The Python AST fragment consumed by `PythonFlowchartBuilder`

Constructors carry the `ast.unparse` text of the expression parts the
builder renders into labels, plus an `exprExtra : Nat` recording the
number of score contributions (`ast.BoolOp` operand count minus one per
boolean expression, plus `ast.With`/`ast.ExceptHandler` constructs hidden
inside unmodelled substructure) that `calculate_complexity`'s `ast.walk`
finds in the parts not represented structurally here. -/

inductive Stmt where
  /-- Model of `ast.If`: test text, score extras of the test expression, body, orelse. -/
  | ifStmt (test : Str) (exprExtra : Nat) (body : List Stmt) (orelse : List Stmt)
  /-- Model of `ast.While`: test text, score extras of the test expression, body. -/
  | whileStmt (test : Str) (exprExtra : Nat) (body : List Stmt)
  /-- Model of `ast.For`: score extras of target/iter expressions, body. -/
  | forStmt (exprExtra : Nat) (body : List Stmt)
  /-- Model of `ast.Return`: `ast.unparse` of the value when present, score extras. -/
  | ret (value : Option Str) (exprExtra : Nat)
  /-- Model of `ast.FunctionDef`: its body (walked for nested defs and by
  `calculate_complexity`) and its full `ast.unparse` text. -/
  | funcDef (body : List Stmt) (src : Str) (exprExtra : Nat)
  /-- any other statement: its full `ast.unparse` text and score extras. -/
  | other (src : Str) (exprExtra : Nat)
deriving Repr

mutual

/-- Score contribution of one statement subtree in `ast.walk`: 1 for each
`ast.If`/`ast.For`/`ast.While` (plus the abstracted
`BoolOp`/`With`/`ExceptHandler` extras). -/
def walkScore : Stmt → Nat
  | .ifStmt _ e body orelse => 1 + e + walkScoreList body + walkScoreList orelse
  | .whileStmt _ e body => 1 + e + walkScoreList body
  | .forStmt e body => 1 + e + walkScoreList body
  | .ret _ e => e
  | .funcDef body _ e => e + walkScoreList body
  | .other _ e => e

/-- Score contributions of a statement list. -/
def walkScoreList : List Stmt → Nat
  | [] => 0
  | s :: ss => walkScore s + walkScoreList ss

end

/-- Model of `PythonFlowchartBuilder.calculate_complexity`: `1` plus the walk count. -/
def calculateComplexity (s : Stmt) : Int := 1 + (walkScore s : Int)

/-- The direct child statements of a statement (the statement lists that
`ast.iter_child_nodes` descends into). -/
def childStmts : Stmt → List Stmt
  | .ifStmt _ _ body orelse => body ++ orelse
  | .whileStmt _ _ body => body
  | .forStmt _ body => body
  | .ret _ _ => []
  | .funcDef body _ _ => body
  | .other _ _ => []

/-- Is this statement an `ast.FunctionDef`? -/
def isFuncDef : Stmt → Bool
  | .funcDef _ _ _ => true
  | _ => false

mutual

/-- A positive weight on statements, used to justify termination of the
breadth-first walk. -/
def stmtWeight : Stmt → Nat
  | .ifStmt _ _ body orelse => 1 + stmtsWeight body + stmtsWeight orelse
  | .whileStmt _ _ body => 1 + stmtsWeight body
  | .forStmt _ body => 1 + stmtsWeight body
  | .ret _ _ => 1
  | .funcDef body _ _ => 1 + stmtsWeight body
  | .other _ _ => 1

/-- Total weight of a statement list. -/
def stmtsWeight : List Stmt → Nat
  | [] => 0
  | s :: ss => stmtWeight s + stmtsWeight ss

end

theorem stmtWeight_pos (s : Stmt) : 0 < stmtWeight s := by
  cases s <;> simp [stmtWeight]

theorem stmtsWeight_append (a b : List Stmt) :
    stmtsWeight (a ++ b) = stmtsWeight a + stmtsWeight b := by
  induction a with
  | nil => simp [stmtsWeight]
  | cons s ss ih => simp [stmtsWeight, ih]; omega

theorem stmtsWeight_childStmts_lt (s : Stmt) :
    stmtsWeight (childStmts s) < stmtWeight s := by
  cases s <;> simp [childStmts, stmtWeight, stmtsWeight, stmtsWeight_append]

theorem stmtsWeight_flatMap_lt (l : List Stmt) (h : l ≠ []) :
    stmtsWeight (l.flatMap childStmts) < stmtsWeight l := by
  induction l with
  | nil => exact absurd rfl h
  | cons s ss ih =>
    have hs := stmtsWeight_childStmts_lt s
    rcases em (ss = []) with rfl | hne
    · simpa [stmtsWeight, stmtsWeight_append] using hs
    · have := ih hne
      simp only [List.flatMap_cons, stmtsWeight_append, stmtsWeight]
      omega

/-- Fuel-driven breadth-first level walk (structural, hence kernel-reducible). -/
def funcDefsBFSAux (fuel : Nat) (level : List Stmt) : List Stmt :=
  match fuel with
  | 0 => []
  | fuel + 1 =>
    match level with
    | [] => []
    | s :: rest =>
      ((s :: rest).filter isFuncDef) ++ funcDefsBFSAux fuel ((s :: rest).flatMap childStmts)

/-- The `ast.FunctionDef` nodes of a statement forest in breadth-first
(`ast.walk`) order: current level first, then all children.  The total
statement weight strictly decreases per level, so it is always enough fuel. -/
def funcDefsBFS (level : List Stmt) : List Stmt :=
  funcDefsBFSAux (stmtsWeight level + 1) level

/-- Model of `f"Is {cond}?"` — the decision label (line 57; not truncated). -/
def condLabel (test : Str) : Str := "Is ".data ++ test ++ "?".data

/-- Model of `f"Loop {test}"` — the while-loop label (line 77; not truncated). -/
def whileLabel (test : Str) : Str := "Loop ".data ++ test

/-- Model of `f"Return {val}"` with `val = ast.unparse(value) if value else "None"`
(lines 90–91; not truncated). -/
def returnLabel (value : Option Str) : Str :=
  "Return ".data ++ value.getD ("None".data)

/-- The truncation applied to generic statements (lines 96–97 and 146):
text longer than 30 characters is cut to its first 27 followed by `"..."`. -/
def truncate30 (code : Str) : Str :=
  if 30 < code.length then code.take 27 ++ "...".data else code

/-- Out-of-range placeholder for `List.getD` (Python would raise
`IndexError`; the builder invariant proves the index in bounds, so it is
never consulted). -/
def dummyNode : Node := ⟨[], [], [], [], 0⟩

/-- Line 61: `self.nodes[int(last_true.split('_')[1])-1].id`. -/
def resolveId (st : BuilderState) (s : Str) : Str :=
  (st.nodes.getD (idNum s - 1) dummyNode).id

mutual

/-- One iteration of the `for stmt in statements` loop of
`PythonFlowchartBuilder.process_body`, dispatching on the statement kind. -/
def processStmt (stmt : Stmt) (current_prev : Str) (st : BuilderState) :
    Str × BuilderState :=
  match stmt with
  | .ifStmt test e body orelse =>
    let score := calculateComplexity (.ifStmt test e body orelse)
    let r1 := addNode st (condLabel test) ("decision".data) score
    let decision_id := r1.1
    let st1 := addEdge r1.2 current_prev decision_id none
    let r2 := processBody body decision_id st1
    let last_true := r2.1
    let st2 := addEdge r2.2 decision_id (resolveId r2.2 last_true) (some ("Yes".data))
    match orelse with
    | [] =>
      let r4 := addNode st2 ("End If".data) ("merge".data) 1
      let merge_id := r4.1
      let st4 := addEdge r4.2 last_true merge_id none
      let st5 := addEdge st4 decision_id merge_id (some ("No".data))
      (merge_id, st5)
    | o :: os =>
      let r3 := processBody (o :: os) decision_id st2
      let last_false := r3.1
      let r4 := addNode r3.2 ("End If".data) ("merge".data) 1
      let merge_id := r4.1
      let st4 := addEdge r4.2 last_true merge_id none
      let st5 := addEdge st4 last_false merge_id none
      (merge_id, st5)
  | .whileStmt test e body =>
    let score := calculateComplexity (.whileStmt test e body)
    let r1 := addNode st (whileLabel test) ("decision".data) score
    let loop_id := r1.1
    let st1 := addEdge r1.2 current_prev loop_id none
    let r2 := processBody body loop_id st1
    let last_body := r2.1
    let st2 := addEdge r2.2 last_body loop_id (some ("Next".data))
    let r3 := addNode st2 ("End Loop".data) ("process".data) 1
    let end_loop := r3.1
    let st3 := addEdge r3.2 loop_id end_loop (some ("Done".data))
    (end_loop, st3)
  | .forStmt e body =>
    let score := calculateComplexity (.forStmt e body)
    let r1 := addNode st ("For Loop".data) ("decision".data) score
    let loop_id := r1.1
    let st1 := addEdge r1.2 current_prev loop_id none
    let r2 := processBody body loop_id st1
    let last_body := r2.1
    let st2 := addEdge r2.2 last_body loop_id (some ("Next".data))
    let r3 := addNode st2 ("End Loop".data) ("process".data) 1
    let end_loop := r3.1
    let st3 := addEdge r3.2 loop_id end_loop (some ("Done".data))
    (end_loop, st3)
  | .ret value _ =>
    let r1 := addNode st (returnLabel value) ("end".data) 1
    let ret_id := r1.1
    let st1 := addEdge r1.2 current_prev ret_id none
    (ret_id, st1)
  | .funcDef _fbody src _fe =>
    let r1 := addNode st (truncate30 src) ("process".data) 1
    let n_id := r1.1
    let st1 := addEdge r1.2 current_prev n_id none
    (n_id, st1)
  | .other src _ =>
    let r1 := addNode st (truncate30 src) ("process".data) 1
    let n_id := r1.1
    let st1 := addEdge r1.2 current_prev n_id none
    (n_id, st1)

/-- Model of `PythonFlowchartBuilder.process_body`: fold `processStmt` over the
statement list, threading `current_prev`, returning the final predecessor. -/
def processBody (statements : List Stmt) (prev_id : Str) (st : BuilderState) :
    Str × BuilderState :=
  match statements with
  | [] => (prev_id, st)
  | stmt :: rest =>
    let r := processStmt stmt prev_id st
    processBody rest r.1 r.2

end

/-- The outcome of `ast.parse(code)` in `build_flowchart`: a parsed module
body, or a `SyntaxError` (carrying the raw text handed to the fallback). -/
inductive ParseResult where
  | ok (body : List Stmt)
  | synErr (code : Str)
deriving Repr

/-! ### `RegexFlowchartBuilder` -/

/-- A character stripped by Python's `str.strip()` (ASCII fragment). -/
def isPySpace (c : Char) : Bool :=
  c = ' ' || c = '\t' || c = '\n' || c = '\r' || c = '\x0b' || c = '\x0c'

/-- Python `line.strip()`. -/
def stripPy (s : Str) : Str :=
  ((s.dropWhile isPySpace).reverse.dropWhile isPySpace).reverse

/-- Python `s.startswith(p)`. -/
def startsWith (p s : Str) : Bool := p.isPrefixOf s

/-- Model of `line.startswith(("//", "#", "/*", "*"))` — the comment-skip test. -/
def isCommentLine (line : Str) : Bool :=
  startsWith ("//".data) line || startsWith ("#".data) line ||
  startsWith ("/*".data) line || startsWith ("*".data) line

/-- Model of `re.match(r'^(if|else if|elif)\s*\(?', line)`: since `\s*` and `\(?` both
match the empty string, the pattern succeeds exactly when the line starts
with one of the three alternatives. -/
def isCondLine (line : Str) : Bool :=
  startsWith ("if".data) line || startsWith ("else if".data) line ||
  startsWith ("elif".data) line

/-- Model of `re.match(r'^(for|while|foreach)\s*\(?', line)`, reduced the same way. -/
def isLoopLine (line : Str) : Bool :=
  startsWith ("for".data) line || startsWith ("while".data) line ||
  startsWith ("foreach".data) line

/-- Python `line.replace(";", "")` (a single-character pattern, so a filter). -/
def removeSemis (line : Str) : Str := line.filter (fun c => c ≠ ';')

/-- Model of `line.split('{')[0]`: the prefix before the first `'{'`. -/
def beforeBrace (line : Str) : Str := line.takeWhile (fun c => c ≠ '\x7b')

/-- Model of `line.split('{')[0].strip()[:30]` — the fallback decision/loop label. -/
def clipLabel (line : Str) : Str := (stripPy (beforeBrace line)).take 30

/-! #### The heuristic scorer and Python's `\b` word-boundary semantics -/

/-- A regex word character `\w` (ASCII fragment: letters, digits, underscore). -/
def isWordChar (c : Char) : Bool := c.isAlphanum || c = '_'

/-- Is the character at offset `i` (if any) a word character? -/
def wordAt (s : Str) (i : Nat) : Bool := isWordChar (s.getD i ' ')

/-- Model of `\b` holds at offset `i`: exactly one of the neighbouring positions
holds a word character. -/
def boundaryAt (s : Str) (i : Nat) : Bool :=
  (if i = 0 then false else wordAt s (i - 1)) != wordAt s i

/-- Case-insensitive character equality (`re.IGNORECASE`, ASCII fragment). -/
def charEqCI (a b : Char) : Bool := a.toLower = b.toLower

/-- The (escaped, hence literal) keyword matches `s` at offset `i`,
case-insensitively. -/
def matchesAt (kw s : Str) (i : Nat) : Bool :=
  decide (i + kw.length ≤ s.length) &&
  (((s.drop i).take kw.length).zip kw).all (fun p => charEqCI p.1 p.2)

/-- The full pattern `r'\b' + re.escape(kw) + r'\b'` matches at offset `i`. -/
def bMatchAt (kw s : Str) (i : Nat) : Bool :=
  boundaryAt s i && matchesAt kw s i && boundaryAt s (i + kw.length)

/-- Model of `len(re.findall(r'\b' + re.escape(kw) + r'\b', s, re.IGNORECASE))`.
Two boundary-delimited matches of one keyword can never overlap (an interior
offset of a match is never a boundary), so the non-overlapping scan of
`findall` finds exactly the set of all match offsets. -/
def countKw (kw s : Str) : Nat :=
  ((List.range (s.length + 1)).filter (fun i => bMatchAt kw s i)).length

/-- The fixed keyword list of `calculate_complexity_heuristic` (line 107). -/
def heuristicKeywords : List Str :=
  ["if".data, "else".data, "for".data, "while".data, "case".data, "catch".data,
   "&&".data, "||".data, "And".data, "Or".data]

/-- Model of `RegexFlowchartBuilder.calculate_complexity_heuristic`. -/
def calculateComplexityHeuristic (code_snippet : Str) : Int :=
  heuristicKeywords.foldl (fun score kw => score + (countKw kw code_snippet : Int)) 1

/-- One iteration of the `for line in lines` loop of
`RegexFlowchartBuilder.build`, threading `(prev_id, state)`. -/
def regexLine (ai : Str → Option Int) (acc : Str × BuilderState) (rawLine : Str) :
    Str × BuilderState :=
  let prev_id := acc.1
  let st := acc.2
  let line := stripPy rawLine
  if line = [] || isCommentLine line then (prev_id, st)
  else
    let line_score := (ai line).getD (calculateComplexityHeuristic line)
    if isCondLine line then
      let r := addNode st (clipLabel line) ("decision".data) line_score
      (r.1, addEdge r.2 prev_id r.1 none)
    else if isLoopLine line then
      let r := addNode st (clipLabel line) ("decision".data) line_score
      (r.1, addEdge r.2 prev_id r.1 none)
    else if startsWith ("return".data) line then
      let r := addNode st (removeSemis line) ("end".data) 1
      (r.1, addEdge r.2 prev_id r.1 none)
    else
      let line2 := truncate30 line
      let r := addNode st (removeSemis line2) ("process".data) line_score
      (r.1, addEdge r.2 prev_id r.1 none)

/-- Python `code.split('\n')`. -/
def splitLines (code : Str) : List Str := splitOnChar '\n' code

/-- Model of `RegexFlowchartBuilder.build`: Start node, per-line scan, trailing
unconditional End node.  The batch collaborator response is the `ai` map. -/
def regexBuild (ai : Str → Option Int) (code : Str) : BuilderState :=
  let r := addNode initState ("Start".data) ("start".data) 1
  let acc := (splitLines code).foldl (regexLine ai) (r.1, r.2)
  (addNode acc.2 ("End".data) ("end".data) 1).2

/-- The body of an `ast.FunctionDef` statement (empty for other kinds; only
applied to statements selected by `isFuncDef`). -/
def funcDefBody : Stmt → List Stmt
  | .funcDef body _ _ => body
  | _ => []

/-- Model of `build_flowchart`: try the structural parse; on success run the
structured builder from the first `ast.FunctionDef` of the `ast.walk`
(breadth-first) order if any, else from the module body; on `SyntaxError`
run the fallback line-based builder instead. -/
def buildFlowchart (pr : ParseResult) (ai : Str → Option Int) : Flowchart :=
  match pr with
  | .ok body =>
    let r := addNode initState ("Start".data) ("start".data) 1
    let start_id := r.1
    let st :=
      match funcDefsBFS body with
      | f :: _ => (processBody (funcDefBody f) start_id r.2).2
      | [] => (processBody body start_id r.2).2
    getFlowchart st
  | .synErr code => getFlowchart (regexBuild ai code)

/-! ### Builder-state invariants -/

/-- Model of `st'` extends `st`: nodes and edges are only appended, the counter only
grows. -/
structure StExt (st st' : BuilderState) : Prop where
  nodes_pre : st.nodes <+: st'.nodes
  edges_pre : st.edges <+: st'.edges
  counter_le : st.node_counter ≤ st'.node_counter

theorem StExt.refl (st : BuilderState) : StExt st st :=
  ⟨List.prefix_refl _, List.prefix_refl _, le_refl _⟩

theorem StExt.trans {a b c : BuilderState} (h1 : StExt a b) (h2 : StExt b c) :
    StExt a c :=
  ⟨h1.nodes_pre.trans h2.nodes_pre, h1.edges_pre.trans h2.edges_pre,
   h1.counter_le.trans h2.counter_le⟩

/-- The builder's bookkeeping invariant: the node list has exactly
`node_counter` entries and the `i`-th entry carries id `node_{i+1}`. -/
def Inv (st : BuilderState) : Prop :=
  st.nodes.length = st.node_counter ∧
  ∀ i, i < st.nodes.length → (st.nodes.getD i dummyNode).id = mkId (i + 1)

/-- Model of `s` is an id `_create_id` has already handed out in `st`. -/
def ValidId (s : Str) (st : BuilderState) : Prop :=
  ∃ k, 1 ≤ k ∧ k ≤ st.node_counter ∧ s = mkId k

/-- Every edge endpoint refers to the id of an existing node. -/
def EdgesValid (st : BuilderState) : Prop :=
  ∀ e ∈ st.edges,
    (∃ n ∈ st.nodes, n.id = e.from_node) ∧ (∃ n ∈ st.nodes, n.id = e.to_node)

/-- Every node that is not the `start` node is the target of some edge. -/
def Covered (st : BuilderState) : Prop :=
  ∀ n ∈ st.nodes, n.type ≠ "start".data → ∃ e ∈ st.edges, e.to_node = n.id

theorem addNode_fst (st : BuilderState) (l t : Str) (sc : Int) :
    (addNode st l t sc).1 = mkId (st.node_counter + 1) := rfl

theorem addNode_nodes (st : BuilderState) (l t : Str) (sc : Int) :
    (addNode st l t sc).2.nodes =
      st.nodes ++ [⟨mkId (st.node_counter + 1), l, t, getBucket sc, sc⟩] := rfl

theorem addNode_edges (st : BuilderState) (l t : Str) (sc : Int) :
    (addNode st l t sc).2.edges = st.edges := rfl

theorem addNode_counter (st : BuilderState) (l t : Str) (sc : Int) :
    (addNode st l t sc).2.node_counter = st.node_counter + 1 := rfl

theorem addEdge_nodes (st : BuilderState) (f t : Str) (lab : Option Str) :
    (addEdge st f t lab).nodes = st.nodes := rfl

theorem addEdge_edges (st : BuilderState) (f t : Str) (lab : Option Str) :
    (addEdge st f t lab).edges = st.edges ++ [⟨f, t, lab⟩] := rfl

theorem addEdge_counter (st : BuilderState) (f t : Str) (lab : Option Str) :
    (addEdge st f t lab).node_counter = st.node_counter := rfl

theorem addNode_ext (st : BuilderState) (l t : Str) (sc : Int) :
    StExt st (addNode st l t sc).2 :=
  ⟨⟨_, (addNode_nodes st l t sc).symm⟩, List.prefix_refl _, Nat.le_succ _⟩

theorem addEdge_ext (st : BuilderState) (f t : Str) (lab : Option Str) :
    StExt st (addEdge st f t lab) :=
  ⟨List.prefix_refl _, ⟨_, (addEdge_edges st f t lab).symm⟩, le_refl _⟩

theorem Inv_addNode {st : BuilderState} (h : Inv st) (l t : Str) (sc : Int) :
    Inv (addNode st l t sc).2 := by
  obtain ⟨hlen, hids⟩ := h
  constructor
  · simp [addNode_nodes, hlen, addNode_counter]
  · intro i hi
    rw [addNode_nodes] at hi ⊢
    simp only [List.length_append, List.length_singleton] at hi
    rcases Nat.lt_or_ge i st.nodes.length with hlt | hge
    · rw [List.getD_append _ _ _ _ hlt]
      exact hids i hlt
    · have hieq : i = st.nodes.length := by omega
      subst hieq
      rw [List.getD_append_right _ _ _ _ (le_refl _)]
      simp [hlen, List.getD]

theorem Inv_addEdge {st : BuilderState} (h : Inv st) (f t : Str) (lab : Option Str) :
    Inv (addEdge st f t lab) := h

theorem ValidId_mono {s : Str} {st st' : BuilderState} (hext : StExt st st')
    (h : ValidId s st) : ValidId s st' := by
  obtain ⟨k, h1, h2, h3⟩ := h
  exact ⟨k, h1, h2.trans hext.counter_le, h3⟩

theorem ValidId_addNode (st : BuilderState) (l t : Str) (sc : Int) :
    ValidId (addNode st l t sc).1 (addNode st l t sc).2 :=
  ⟨st.node_counter + 1, by omega, le_of_eq (addNode_counter st l t sc).symm, rfl⟩

theorem ValidId_mem {s : Str} {st : BuilderState} (hinv : Inv st)
    (h : ValidId s st) : ∃ n ∈ st.nodes, n.id = s := by
  obtain ⟨k, h1, h2, rfl⟩ := h
  obtain ⟨hlen, hids⟩ := hinv
  have hk : k - 1 < st.nodes.length := by omega
  refine ⟨st.nodes.getD (k - 1) dummyNode, ?_, ?_⟩
  · rw [List.getD_eq_getElem _ _ hk]
    exact List.getElem_mem hk
  · rw [hids (k - 1) hk]
    congr 1
    omega

/-- Line 61's index lookup resolves a previously returned id to itself. -/
theorem resolveId_eq {s : Str} {st : BuilderState} (hinv : Inv st)
    (h : ValidId s st) : resolveId st s = s := by
  obtain ⟨k, h1, h2, rfl⟩ := h
  obtain ⟨hlen, hids⟩ := hinv
  have hk : k - 1 < st.nodes.length := by omega
  unfold resolveId
  rw [idNum_mkId, hids (k - 1) hk]
  congr 1
  omega

theorem EdgesValid_addNode {st : BuilderState} (h : EdgesValid st)
    (l t : Str) (sc : Int) : EdgesValid (addNode st l t sc).2 := by
  intro e he
  rw [addNode_edges] at he
  obtain ⟨⟨n1, hn1, hid1⟩, ⟨n2, hn2, hid2⟩⟩ := h e he
  rw [addNode_nodes]
  exact ⟨⟨n1, List.mem_append_left _ hn1, hid1⟩, ⟨n2, List.mem_append_left _ hn2, hid2⟩⟩

theorem EdgesValid_addEdge {st : BuilderState} {f t : Str} (h : EdgesValid st)
    (hf : ∃ n ∈ st.nodes, n.id = f) (ht : ∃ n ∈ st.nodes, n.id = t)
    (lab : Option Str) : EdgesValid (addEdge st f t lab) := by
  intro e he
  rw [addEdge_edges] at he
  rw [addEdge_nodes]
  rcases List.mem_append.1 he with he | he
  · exact h e he
  · simp only [List.mem_singleton] at he
    subst he
    exact ⟨hf, ht⟩

theorem Covered_addEdge {st : BuilderState} (h : Covered st) (f t : Str)
    (lab : Option Str) : Covered (addEdge st f t lab) := by
  intro n hn hns
  rw [addEdge_nodes] at hn
  obtain ⟨e, he, hid⟩ := h n hn hns
  exact ⟨e, by rw [addEdge_edges]; exact List.mem_append_left _ he, hid⟩

/-- The pervasive "create a node, then immediately give it an incoming
edge" pattern: every invariant survives, the new id is the counter
successor, and it is covered. -/
theorem step_node_edge {st : BuilderState} (l t : Str) (sc : Int) {x : Str}
    (lab : Option Str) (hinv : Inv st) (hx : ValidId x st) (hEV : EdgesValid st)
    (hCov : Covered st) :
    Inv (addEdge (addNode st l t sc).2 x (addNode st l t sc).1 lab) ∧
    StExt st (addEdge (addNode st l t sc).2 x (addNode st l t sc).1 lab) ∧
    ValidId (addNode st l t sc).1
      (addEdge (addNode st l t sc).2 x (addNode st l t sc).1 lab) ∧
    EdgesValid (addEdge (addNode st l t sc).2 x (addNode st l t sc).1 lab) ∧
    Covered (addEdge (addNode st l t sc).2 x (addNode st l t sc).1 lab) := by
  have hinv1 := Inv_addNode hinv l t sc
  have hext1 := addNode_ext st l t sc
  refine ⟨Inv_addEdge hinv1 _ _ _,
    (addNode_ext st l t sc).trans (addEdge_ext _ _ _ _), ?_, ?_, ?_⟩
  · exact ValidId_mono (addEdge_ext _ _ _ _) (ValidId_addNode st l t sc)
  · exact EdgesValid_addEdge (EdgesValid_addNode hEV l t sc)
      (ValidId_mem hinv1 (ValidId_mono hext1 hx))
      (ValidId_mem hinv1 (ValidId_addNode st l t sc)) lab
  · intro n hn hns
    rw [addEdge_nodes, addNode_nodes] at hn
    rcases List.mem_append.1 hn with hn | hn
    · obtain ⟨e, he, hid⟩ := hCov n hn hns
      refine ⟨e, ?_, hid⟩
      rw [addEdge_edges, addNode_edges]
      exact List.mem_append_left _ he
    · simp only [List.mem_singleton] at hn
      subst hn
      refine ⟨⟨x, (addNode st l t sc).1, lab⟩, ?_, rfl⟩
      rw [addEdge_edges]
      exact List.mem_append_right _ (List.mem_singleton.2 rfl)

/-- Adding a plain edge between two already-returned ids preserves all
invariants. -/
theorem step_edge {st : BuilderState} {f t : Str} (hinv : Inv st)
    (hf : ValidId f st) (ht : ValidId t st) (hEV : EdgesValid st)
    (hCov : Covered st) (lab : Option Str) :
    Inv (addEdge st f t lab) ∧ StExt st (addEdge st f t lab) ∧
    EdgesValid (addEdge st f t lab) ∧ Covered (addEdge st f t lab) :=
  ⟨hinv, addEdge_ext st f t lab,
   EdgesValid_addEdge hEV (ValidId_mem hinv hf) (ValidId_mem hinv ht) lab,
   Covered_addEdge hCov f t lab⟩

/-! ### The recursive walk preserves the invariants -/

theorem stmtWeight_le_of_mem {s : Stmt} {l : List Stmt} (h : s ∈ l) :
    stmtWeight s ≤ stmtsWeight l := by
  induction l with
  | nil => cases h
  | cons a as ih =>
    rcases List.mem_cons.1 h with rfl | h
    · simp [stmtsWeight]
    · have := ih h
      simp only [stmtsWeight]
      omega

/-- What one `processStmt` call guarantees, given a well-formed state and a
previously returned predecessor id. -/
def StmtOK (stmt : Stmt) (prev : Str) (st : BuilderState) : Prop :=
  Inv st → ValidId prev st → EdgesValid st → Covered st →
    Inv (processStmt stmt prev st).2 ∧
    StExt st (processStmt stmt prev st).2 ∧
    ValidId (processStmt stmt prev st).1 (processStmt stmt prev st).2 ∧
    EdgesValid (processStmt stmt prev st).2 ∧
    Covered (processStmt stmt prev st).2

/-- What one `processBody` call guarantees. -/
def BodyOK (l : List Stmt) (prev : Str) (st : BuilderState) : Prop :=
  Inv st → ValidId prev st → EdgesValid st → Covered st →
    Inv (processBody l prev st).2 ∧
    StExt st (processBody l prev st).2 ∧
    ValidId (processBody l prev st).1 (processBody l prev st).2 ∧
    EdgesValid (processBody l prev st).2 ∧
    Covered (processBody l prev st).2

theorem bodyOK_of_stmtOK :
    ∀ (l : List Stmt), (∀ s ∈ l, ∀ prev st, StmtOK s prev st) →
      ∀ prev st, BodyOK l prev st := by
  intro l
  induction l with
  | nil =>
    intro _ prev st hInv hPrev hEV hCov
    simp only [processBody]
    exact ⟨hInv, StExt.refl st, hPrev, hEV, hCov⟩
  | cons s ss ih =>
    intro h prev st hInv hPrev hEV hCov
    simp only [processBody]
    obtain ⟨hI1, hX1, hV1, hE1, hC1⟩ :=
      h s (List.mem_cons_self s ss) prev st hInv hPrev hEV hCov
    obtain ⟨hI2, hX2, hV2, hE2, hC2⟩ :=
      ih (fun s' hs' => h s' (List.mem_cons_of_mem s hs'))
        (processStmt s prev st).1 (processStmt s prev st).2 hI1 hV1 hE1 hC1
    exact ⟨hI2, hX1.trans hX2, hV2, hE2, hC2⟩

theorem stmtOK_all_aux :
    ∀ (W : Nat) (s : Stmt), stmtWeight s ≤ W → ∀ prev st, StmtOK s prev st := by
  intro W
  induction W using Nat.strong_induction_on with
  | _ W ihW =>
    intro s hw prev st
    have hbody : ∀ (l : List Stmt), stmtsWeight l < stmtWeight s →
        ∀ prev' st', BodyOK l prev' st' := by
      intro l hl prev' st'
      refine bodyOK_of_stmtOK l ?_ prev' st'
      intro s' hs' prev'' st''
      exact ihW (stmtsWeight l) (by omega) s' (stmtWeight_le_of_mem hs') prev'' st''
    match s with
    | .ifStmt test e body [] =>
      intro hInv hPrev hEV hCov
      simp only [processStmt]
      obtain ⟨hI1, hX1, hV1, hE1, hC1⟩ :=
        step_node_edge (condLabel test) ("decision".data)
          (calculateComplexity (.ifStmt test e body [])) none hInv hPrev hEV hCov
      obtain ⟨hI2, hX2, hV2, hE2, hC2⟩ :=
        hbody body (by simp only [stmtWeight]; omega) _ _ hI1 hV1 hE1 hC1
      rw [resolveId_eq hI2 hV2]
      obtain ⟨hI3, hX3, hE3, hC3⟩ :=
        step_edge hI2 (ValidId_mono hX2 hV1) hV2 hE2 hC2 (some ("Yes".data))
      obtain ⟨hI4, hX4, hV4, hE4, hC4⟩ :=
        step_node_edge ("End If".data) ("merge".data) 1 none hI3
          (ValidId_mono hX3 hV2) hE3 hC3
      obtain ⟨hI5, hX5, hE5, hC5⟩ :=
        step_edge hI4 (ValidId_mono (hX3.trans hX4) (ValidId_mono hX2 hV1)) hV4
          hE4 hC4 (some ("No".data))
      exact ⟨hI5, hX1.trans (hX2.trans (hX3.trans (hX4.trans hX5))),
        ValidId_mono hX5 hV4, hE5, hC5⟩
    | .ifStmt test e body (o :: os) =>
      intro hInv hPrev hEV hCov
      simp only [processStmt]
      obtain ⟨hI1, hX1, hV1, hE1, hC1⟩ :=
        step_node_edge (condLabel test) ("decision".data)
          (calculateComplexity (.ifStmt test e body (o :: os))) none hInv hPrev hEV hCov
      obtain ⟨hI2, hX2, hV2, hE2, hC2⟩ :=
        hbody body (by simp only [stmtWeight]; omega) _ _ hI1 hV1 hE1 hC1
      rw [resolveId_eq hI2 hV2]
      obtain ⟨hI3, hX3, hE3, hC3⟩ :=
        step_edge hI2 (ValidId_mono hX2 hV1) hV2 hE2 hC2 (some ("Yes".data))
      obtain ⟨hI4, hX4, hV4, hE4, hC4⟩ :=
        hbody (o :: os) (by simp only [stmtWeight]; omega) _ _ hI3
          (ValidId_mono (hX2.trans hX3) hV1) hE3 hC3
      obtain ⟨hI5, hX5, hV5, hE5, hC5⟩ :=
        step_node_edge ("End If".data) ("merge".data) 1 none hI4
          (ValidId_mono (hX3.trans hX4) hV2) hE4 hC4
      obtain ⟨hI6, hX6, hE6, hC6⟩ :=
        step_edge hI5 (ValidId_mono hX5 hV4) hV5 hE5 hC5 none
      exact ⟨hI6, hX1.trans (hX2.trans (hX3.trans (hX4.trans (hX5.trans hX6)))),
        ValidId_mono hX6 hV5, hE6, hC6⟩
    | .whileStmt test e body =>
      intro hInv hPrev hEV hCov
      simp only [processStmt]
      obtain ⟨hI1, hX1, hV1, hE1, hC1⟩ :=
        step_node_edge (whileLabel test) ("decision".data)
          (calculateComplexity (.whileStmt test e body)) none hInv hPrev hEV hCov
      obtain ⟨hI2, hX2, hV2, hE2, hC2⟩ :=
        hbody body (by simp only [stmtWeight]; omega) _ _ hI1 hV1 hE1 hC1
      obtain ⟨hI3, hX3, hE3, hC3⟩ :=
        step_edge hI2 hV2 (ValidId_mono hX2 hV1) hE2 hC2 (some ("Next".data))
      obtain ⟨hI4, hX4, hV4, hE4, hC4⟩ :=
        step_node_edge ("End Loop".data) ("process".data) 1 (some ("Done".data)) hI3
          (ValidId_mono (hX2.trans hX3) hV1) hE3 hC3
      exact ⟨hI4, hX1.trans (hX2.trans (hX3.trans hX4)), hV4, hE4, hC4⟩
    | .forStmt e body =>
      intro hInv hPrev hEV hCov
      simp only [processStmt]
      obtain ⟨hI1, hX1, hV1, hE1, hC1⟩ :=
        step_node_edge ("For Loop".data) ("decision".data)
          (calculateComplexity (.forStmt e body)) none hInv hPrev hEV hCov
      obtain ⟨hI2, hX2, hV2, hE2, hC2⟩ :=
        hbody body (by simp only [stmtWeight]; omega) _ _ hI1 hV1 hE1 hC1
      obtain ⟨hI3, hX3, hE3, hC3⟩ :=
        step_edge hI2 hV2 (ValidId_mono hX2 hV1) hE2 hC2 (some ("Next".data))
      obtain ⟨hI4, hX4, hV4, hE4, hC4⟩ :=
        step_node_edge ("End Loop".data) ("process".data) 1 (some ("Done".data)) hI3
          (ValidId_mono (hX2.trans hX3) hV1) hE3 hC3
      exact ⟨hI4, hX1.trans (hX2.trans (hX3.trans hX4)), hV4, hE4, hC4⟩
    | .ret value e =>
      intro hInv hPrev hEV hCov
      simp only [processStmt]
      exact step_node_edge (returnLabel value) ("end".data) 1 none hInv hPrev hEV hCov
    | .funcDef fbody src e =>
      intro hInv hPrev hEV hCov
      simp only [processStmt]
      exact step_node_edge (truncate30 src) ("process".data) 1 none hInv hPrev hEV hCov
    | .other src e =>
      intro hInv hPrev hEV hCov
      simp only [processStmt]
      exact step_node_edge (truncate30 src) ("process".data) 1 none hInv hPrev hEV hCov

theorem stmtOK_all (s : Stmt) (prev : Str) (st : BuilderState) : StmtOK s prev st :=
  stmtOK_all_aux (stmtWeight s) s (le_refl _) prev st

theorem processBody_ok (l : List Stmt) (prev : Str) (st : BuilderState) :
    BodyOK l prev st :=
  bodyOK_of_stmtOK l (fun s _ prev' st' => stmtOK_all s prev' st') prev st

/-! ### The fallback scan preserves the invariants -/

theorem regexLine_ok (ai : Str → Option Int) (acc : Str × BuilderState)
    (rawLine : Str) (hInv : Inv acc.2) (hPrev : ValidId acc.1 acc.2)
    (hEV : EdgesValid acc.2) (hCov : Covered acc.2) :
    Inv (regexLine ai acc rawLine).2 ∧
    StExt acc.2 (regexLine ai acc rawLine).2 ∧
    ValidId (regexLine ai acc rawLine).1 (regexLine ai acc rawLine).2 ∧
    EdgesValid (regexLine ai acc rawLine).2 ∧
    Covered (regexLine ai acc rawLine).2 := by
  obtain ⟨prev, st⟩ := acc
  simp only [regexLine]
  split
  · exact ⟨hInv, StExt.refl st, hPrev, hEV, hCov⟩
  · split
    · exact step_node_edge _ _ _ none hInv hPrev hEV hCov
    · split
      · exact step_node_edge _ _ _ none hInv hPrev hEV hCov
      · split
        · exact step_node_edge _ _ _ none hInv hPrev hEV hCov
        · exact step_node_edge _ _ _ none hInv hPrev hEV hCov

theorem regexFold_ok (ai : Str → Option Int) (lines : List Str) :
    ∀ acc : Str × BuilderState, Inv acc.2 → ValidId acc.1 acc.2 →
      EdgesValid acc.2 → Covered acc.2 →
      Inv (lines.foldl (regexLine ai) acc).2 ∧
      StExt acc.2 (lines.foldl (regexLine ai) acc).2 ∧
      ValidId (lines.foldl (regexLine ai) acc).1 (lines.foldl (regexLine ai) acc).2 ∧
      EdgesValid (lines.foldl (regexLine ai) acc).2 ∧
      Covered (lines.foldl (regexLine ai) acc).2 := by
  induction lines with
  | nil =>
    intro acc h1 h2 h3 h4
    simpa using ⟨h1, StExt.refl acc.2, h2, h3, h4⟩
  | cons l ls ih =>
    intro acc h1 h2 h3 h4
    simp only [List.foldl_cons]
    obtain ⟨hI1, hX1, hV1, hE1, hC1⟩ := regexLine_ok ai acc l h1 h2 h3 h4
    obtain ⟨hI2, hX2, hV2, hE2, hC2⟩ := ih (regexLine ai acc l) hI1 hV1 hE1 hC1
    exact ⟨hI2, hX1.trans hX2, hV2, hE2, hC2⟩

/-! ### The freshly started builder -/

/-- The state right after the `Start` node is created. -/
def startState : BuilderState :=
  (addNode initState ("Start".data) ("start".data) 1).2

theorem Inv_startState : Inv startState := by
  constructor
  · rfl
  · intro i hi
    have : i = 0 := by
      simpa [startState, addNode_nodes, initState] using hi
    subst this
    rfl

theorem ValidId_start : ValidId (addNode initState ("Start".data) ("start".data) 1).1 startState :=
  ⟨1, le_refl _, le_refl _, rfl⟩

theorem EdgesValid_startState : EdgesValid startState := by
  intro e he
  simp [startState, addNode_edges, initState] at he

theorem Covered_startState : Covered startState := by
  intro n hn hne
  simp only [startState, addNode_nodes, initState, List.nil_append,
    List.mem_singleton] at hn
  subst hn
  exact absurd rfl hne

/-- A line matching the conditional pattern cannot begin with `return`
(their first characters differ). -/
theorem not_return_of_cond (l : Str) (h : isCondLine l = true) :
    startsWith ("return".data) l = false := by
  cases l with
  | nil => simp [isCondLine, startsWith, List.isPrefixOf] at h
  | cons c rest =>
    simp only [isCondLine, startsWith, Bool.or_eq_true,
      List.isPrefixOf_cons₂, Bool.and_eq_true, beq_iff_eq] at h
    simp only [startsWith, List.isPrefixOf_cons₂, Bool.and_eq_true,
      beq_iff_eq]
    rcases h with (⟨hc, _⟩ | ⟨hc, _⟩) | ⟨hc, _⟩ <;> subst hc <;> simp

/-- A line matching the loop pattern cannot begin with `return`. -/
theorem not_return_of_loop (l : Str) (h : isLoopLine l = true) :
    startsWith ("return".data) l = false := by
  cases l with
  | nil => simp [isLoopLine, startsWith, List.isPrefixOf] at h
  | cons c rest =>
    simp only [isLoopLine, startsWith, Bool.or_eq_true,
      List.isPrefixOf_cons₂, Bool.and_eq_true, beq_iff_eq] at h
    simp only [startsWith, List.isPrefixOf_cons₂, Bool.and_eq_true,
      beq_iff_eq]
    rcases h with (⟨hc, _⟩ | ⟨hc, _⟩) | ⟨hc, _⟩ <;> subst hc <;> simp

/-! ### Claims -/

/-- C3: the complexity bucket is a pure function of the integer score:
`score ≤ 5 → "low"`, `6 ≤ score ≤ 10 → "medium"`, `score > 10 → "high"`,
and the bucket stored on every node created through `_add_node` (the one
node-creation path shared by both builders) is exactly `_get_bucket` of the
node's score. -/
theorem C3_bucket_pure (score : Int) :
    (score ≤ 5 → getBucket score = "low".data) ∧
    (6 ≤ score → score ≤ 10 → getBucket score = "medium".data) ∧
    (10 < score → getBucket score = "high".data) ∧
    (∀ st label type, (addNode st label type score).2.nodes.getLast? =
      some ⟨mkId (st.node_counter + 1), label, type, getBucket score, score⟩) := by
  refine ⟨?_, ?_, ?_, ?_⟩
  · intro h
    simp [getBucket, h]
  · intro h1 h2
    rw [getBucket, if_neg (by omega), if_pos h2]
  · intro h
    rw [getBucket, if_neg (by omega), if_neg (by omega)]
  · intro st label type
    rw [addNode_nodes]
    exact List.getLast?_concat _

/-- Witness for C3 at the boundary scores 5, 6, 10, 11. -/
theorem C3_bucket_pure_witness :
    getBucket 5 = "low".data ∧ getBucket 6 = "medium".data ∧
    getBucket 10 = "medium".data ∧ getBucket 11 = "high".data :=
  ⟨(C3_bucket_pure 5).1 (by norm_num),
   (C3_bucket_pure 6).2.1 (by norm_num) (by norm_num),
   (C3_bucket_pure 10).2.1 (by norm_num) (by norm_num),
   (C3_bucket_pure 11).2.2.1 (by norm_num)⟩

/-- C10: on an empty parsed module (empty or whitespace-only source text
parses to a module with no statements and no function definition),
`build_flowchart` returns exactly one `start` node labelled `Start` and no
edges — no trailing `end` node. -/
theorem C10_empty_module (ai : Str → Option Int) :
    buildFlowchart (.ok []) ai =
      ⟨[⟨mkId 1, "Start".data, "start".data, "low".data, 1⟩], []⟩ := rfl

/-- C5: on a `SyntaxError` outcome (and only there — the `ok` arm of
`buildFlowchart` never runs the fallback) the dispatcher runs the
line-based builder and returns a flowchart whose first node is the
`start` node and whose final node is the unconditional `End` node; the
builder is a total function, so no failure escapes for that input. -/
theorem C5_syntax_error_fallback (code : Str) (ai : Str → Option Int) :
    (buildFlowchart (.synErr code) ai).nodes.head? =
      some ⟨mkId 1, "Start".data, "start".data, getBucket 1, 1⟩ ∧
    ∃ endN, (buildFlowchart (.synErr code) ai).nodes.getLast? = some endN ∧
      endN.type = "end".data ∧ endN.label = "End".data := by
  obtain ⟨hI, hX, hV, hE, hC⟩ := regexFold_ok ai (splitLines code)
    ((addNode initState ("Start".data) ("start".data) 1).1,
     (addNode initState ("Start".data) ("start".data) 1).2)
    Inv_startState ValidId_start EdgesValid_startState Covered_startState
  obtain ⟨t, ht⟩ := hX.nodes_pre
  constructor
  · show (getFlowchart (regexBuild ai code)).nodes.head? = _
    simp only [getFlowchart, regexBuild, addNode_nodes]
    rw [← ht]
    simp [addNode_nodes, initState]
  · show ∃ endN, (getFlowchart (regexBuild ai code)).nodes.getLast? = some endN ∧ _
    simp only [getFlowchart, regexBuild, addNode_nodes]
    exact ⟨_, List.getLast?_concat _, rfl, rfl⟩

/-- C9: in every flowchart `build_flowchart` returns, both endpoints of
every edge are ids of nodes in the node list; and the line-61 index
computation (`nodes[int(id.split('_')[1])-1].id`, modelled by `resolveId`)
maps every id the builder has returned back to itself, so the `Yes` edge
targets the `last_true` node and the out-of-range case is unreachable. -/
theorem C9_edge_endpoints_valid (pr : ParseResult) (ai : Str → Option Int) :
    (∀ e ∈ (buildFlowchart pr ai).edges,
      (∃ n ∈ (buildFlowchart pr ai).nodes, n.id = e.from_node) ∧
      (∃ n ∈ (buildFlowchart pr ai).nodes, n.id = e.to_node)) ∧
    (∀ st s, Inv st → ValidId s st → resolveId st s = s) := by
  constructor
  · cases pr with
    | ok body =>
      rcases hf : funcDefsBFS body with _ | ⟨f, fs⟩
      · obtain ⟨hI, hXx, hVv, hEE, hCc⟩ := processBody_ok body
          (addNode initState ("Start".data) ("start".data) 1).1
          (addNode initState ("Start".data) ("start".data) 1).2
          Inv_startState ValidId_start EdgesValid_startState Covered_startState
        simp only [buildFlowchart, hf, getFlowchart]
        exact hEE
      · obtain ⟨hI, hXx, hVv, hEE, hCc⟩ := processBody_ok (funcDefBody f)
          (addNode initState ("Start".data) ("start".data) 1).1
          (addNode initState ("Start".data) ("start".data) 1).2
          Inv_startState ValidId_start EdgesValid_startState Covered_startState
        simp only [buildFlowchart, hf, getFlowchart]
        exact hEE
    | synErr code =>
      obtain ⟨hI, hXx, hVv, hEE, hCc⟩ := regexFold_ok ai (splitLines code)
        ((addNode initState ("Start".data) ("start".data) 1).1,
         (addNode initState ("Start".data) ("start".data) 1).2)
        Inv_startState ValidId_start EdgesValid_startState Covered_startState
      simp only [buildFlowchart, regexBuild, getFlowchart]
      exact EdgesValid_addNode hEE ("End".data) ("end".data) 1
  · intro st s h1 h2
    exact resolveId_eq h1 h2

/-- Witness for C9: in the fallback flowchart for source `"a"` the single
edge `node_1 → node_2` has both endpoints resolved among the nodes. -/
theorem C9_edge_endpoints_valid_witness :
    (∃ n ∈ (buildFlowchart (.synErr ("a".data)) (fun _ => none)).nodes,
      n.id = "node_1".data) ∧
    (∃ n ∈ (buildFlowchart (.synErr ("a".data)) (fun _ => none)).nodes,
      n.id = "node_2".data) :=
  (C9_edge_endpoints_valid (.synErr ("a".data)) (fun _ => none)).1
    ⟨"node_1".data, "node_2".data, none⟩ (by decide)

/-- C2 counterexample: on the fallback path the unconditionally appended
final `End` node (here `node_3` for the single-line unparsable source
`"x = 1)"`) is a non-`start` node that no edge targets — its in-degree
is 0, contradicting the claim. -/
theorem C2_counterexample :
    ∃ n ∈ (buildFlowchart (.synErr ("x = 1)".data)) (fun _ => none)).nodes,
      n.type ≠ "start".data ∧
      ∀ e ∈ (buildFlowchart (.synErr ("x = 1)".data)) (fun _ => none)).edges,
        e.to_node ≠ n.id := by decide

/-- C2 amended: every non-`start` node has in-degree ≥ 1, except that on
the fallback path the final unconditionally appended `End` node is the
target of no edge; all structured-builder nodes and all fallback nodes
before that final one satisfy the bound. -/
theorem C2_in_degree (ai : Str → Option Int) :
    (∀ body, ∀ n ∈ (buildFlowchart (.ok body) ai).nodes,
      n.type ≠ "start".data →
      ∃ e ∈ (buildFlowchart (.ok body) ai).edges, e.to_node = n.id) ∧
    (∀ code, ∀ n ∈ (buildFlowchart (.synErr code) ai).nodes.dropLast,
      n.type ≠ "start".data →
      ∃ e ∈ (buildFlowchart (.synErr code) ai).edges, e.to_node = n.id) ∧
    (∀ code, ∃ endN,
      (buildFlowchart (.synErr code) ai).nodes.getLast? = some endN ∧
      endN.label = "End".data ∧ endN.type = "end".data) := by
  refine ⟨?_, ?_, ?_⟩
  · intro body
    rcases hf : funcDefsBFS body with _ | ⟨f, fs⟩
    · obtain ⟨hI, hXx, hVv, hEE, hCc⟩ := processBody_ok body
        (addNode initState ("Start".data) ("start".data) 1).1
        (addNode initState ("Start".data) ("start".data) 1).2
        Inv_startState ValidId_start EdgesValid_startState Covered_startState
      simp only [buildFlowchart, hf, getFlowchart]
      exact hCc
    · obtain ⟨hI, hXx, hVv, hEE, hCc⟩ := processBody_ok (funcDefBody f)
        (addNode initState ("Start".data) ("start".data) 1).1
        (addNode initState ("Start".data) ("start".data) 1).2
        Inv_startState ValidId_start EdgesValid_startState Covered_startState
      simp only [buildFlowchart, hf, getFlowchart]
      exact hCc
  · intro code
    obtain ⟨hI, hXx, hVv, hEE, hCc⟩ := regexFold_ok ai (splitLines code)
      ((addNode initState ("Start".data) ("start".data) 1).1,
       (addNode initState ("Start".data) ("start".data) 1).2)
      Inv_startState ValidId_start EdgesValid_startState Covered_startState
    simp only [buildFlowchart, regexBuild, getFlowchart, addNode_nodes,
      addNode_edges, List.dropLast_concat]
    exact hCc
  · intro code
    show ∃ endN, (getFlowchart (regexBuild ai code)).nodes.getLast? = some endN ∧ _
    simp only [getFlowchart, regexBuild, addNode_nodes]
    exact ⟨_, List.getLast?_concat _, rfl, rfl⟩

/-- Witness for C2 (amended): in the structured flowchart for `[x = 1]`
the process node `node_2` has an incoming edge. -/
theorem C2_in_degree_witness :
    ∃ e ∈ (buildFlowchart (.ok [.other ("x = 1".data) 0]) (fun _ => none)).edges,
      e.to_node = "node_2".data := by
  have h := (C2_in_degree (fun _ => none)).1 [.other ("x = 1".data) 0]
    ⟨"node_2".data, "x = 1".data, "process".data, "low".data, 1⟩ (by decide) (by decide)
  exact h

/-- C4: for a `while` loop with a 1-statement body, the builder emits the
loop-header `decision` node, recurses into the body from it (yielding
`last_body` and state `stB`), adds the edge `last_body → header` labelled
`Next`, creates the `process` node `End Loop`, adds the edge
`header → End Loop` labelled `Done`, and advances the predecessor to the
`End Loop` node. -/
theorem C4_while_loop (test : Str) (e : Nat) (s : Stmt) (prev : Str)
    (st : BuilderState) (last_body : Str) (stB : BuilderState)
    (hbody : processBody [s]
      (addNode st (whileLabel test) ("decision".data)
        (calculateComplexity (.whileStmt test e [s]))).1
      (addEdge (addNode st (whileLabel test) ("decision".data)
          (calculateComplexity (.whileStmt test e [s]))).2 prev
        (addNode st (whileLabel test) ("decision".data)
          (calculateComplexity (.whileStmt test e [s]))).1 none) =
      (last_body, stB)) :
    (addNode st (whileLabel test) ("decision".data)
        (calculateComplexity (.whileStmt test e [s]))).2.nodes =
      st.nodes ++ [⟨mkId (st.node_counter + 1), whileLabel test, "decision".data,
        getBucket (calculateComplexity (.whileStmt test e [s])),
        calculateComplexity (.whileStmt test e [s])⟩] ∧
    processStmt (.whileStmt test e [s]) prev st =
      (mkId (stB.node_counter + 1),
       { nodes := stB.nodes ++ [⟨mkId (stB.node_counter + 1), "End Loop".data,
           "process".data, getBucket 1, 1⟩],
         edges := stB.edges ++
           [⟨last_body, mkId (st.node_counter + 1), some ("Next".data)⟩,
            ⟨mkId (st.node_counter + 1), mkId (stB.node_counter + 1),
              some ("Done".data)⟩],
         node_counter := stB.node_counter + 1 }) := by
  constructor
  · exact addNode_nodes st (whileLabel test) ("decision".data) _
  · simp only [processStmt]
    rw [hbody]
    simp [addNode, addEdge]

/-- Witness for C4: the concrete loop `while x: y = 1` processed from the
start node. -/
theorem C4_while_loop_witness :
    processStmt (.whileStmt ("x".data) 0 [.other ("y = 1".data) 0])
        ("node_1".data) startState =
      ("node_4".data,
       ⟨[⟨"node_1".data, "Start".data, "start".data, "low".data, 1⟩,
         ⟨"node_2".data, "Loop x".data, "decision".data, "low".data, 2⟩,
         ⟨"node_3".data, "y = 1".data, "process".data, "low".data, 1⟩,
         ⟨"node_4".data, "End Loop".data, "process".data, "low".data, 1⟩],
        [⟨"node_1".data, "node_2".data, none⟩,
         ⟨"node_2".data, "node_3".data, none⟩,
         ⟨"node_3".data, "node_2".data, some ("Next".data)⟩,
         ⟨"node_2".data, "node_4".data, some ("Done".data)⟩], 4⟩) := by
  have h := (C4_while_loop ("x".data) 0 (.other ("y = 1".data) 0) ("node_1".data)
    startState ("node_3".data)
    ⟨[⟨"node_1".data, "Start".data, "start".data, "low".data, 1⟩,
      ⟨"node_2".data, "Loop x".data, "decision".data, "low".data, 2⟩,
      ⟨"node_3".data, "y = 1".data, "process".data, "low".data, 1⟩],
     [⟨"node_1".data, "node_2".data, none⟩,
      ⟨"node_2".data, "node_3".data, none⟩], 3⟩ (by decide)).2
  exact h.trans (by decide)

/-- C1 counterexample: for `if x: y = 1` (no `else`), the decision node
`node_2` has three outgoing edges — the unlabeled body-entry edge, the
line-61 `Yes` edge, and the `No` edge — whereas the claim allows no edge
out of the decision beyond the body-entry edge and the single `No` edge. -/
theorem C1_counterexample :
    (∃ n ∈ (buildFlowchart (.ok [.ifStmt ("x".data) 0 [.other ("y = 1".data) 0] []])
        (fun _ => none)).nodes, n.id = "node_2".data ∧ n.type = "decision".data) ∧
    (∃ e ∈ (buildFlowchart (.ok [.ifStmt ("x".data) 0 [.other ("y = 1".data) 0] []])
        (fun _ => none)).edges,
      e.from_node = "node_2".data ∧ e.label = some ("Yes".data)) ∧
    ((buildFlowchart (.ok [.ifStmt ("x".data) 0 [.other ("y = 1".data) 0] []])
        (fun _ => none)).edges.filter
      (fun e => e.from_node = "node_2".data)).length = 3 := by decide

/-- C1 amended: for a conditional without an else-branch the edges created
are exactly: the unlabeled edge `prev → decision`, the edges of the
recursive body walk (yielding `last_true` and state `stB`), an edge
labelled `Yes` from the decision node to the `last_true` node, the
unlabeled edge `last_true → merge`, and exactly one edge labelled `No`
from the decision node to the merge node. -/
theorem C1_if_no_else (test : Str) (e : Nat) (body : List Stmt) (prev : Str)
    (st : BuilderState) (last_true : Str) (stB : BuilderState)
    (hInv : Inv st) (hPrev : ValidId prev st) (hEV : EdgesValid st)
    (hCov : Covered st)
    (hbody : processBody body
      (addNode st (condLabel test) ("decision".data)
        (calculateComplexity (.ifStmt test e body []))).1
      (addEdge (addNode st (condLabel test) ("decision".data)
          (calculateComplexity (.ifStmt test e body []))).2 prev
        (addNode st (condLabel test) ("decision".data)
          (calculateComplexity (.ifStmt test e body []))).1 none) =
      (last_true, stB)) :
    (addNode st (condLabel test) ("decision".data)
        (calculateComplexity (.ifStmt test e body []))).2.nodes =
      st.nodes ++ [⟨mkId (st.node_counter + 1), condLabel test, "decision".data,
        getBucket (calculateComplexity (.ifStmt test e body [])),
        calculateComplexity (.ifStmt test e body [])⟩] ∧
    processStmt (.ifStmt test e body []) prev st =
      (mkId (stB.node_counter + 1),
       { nodes := stB.nodes ++ [⟨mkId (stB.node_counter + 1), "End If".data,
           "merge".data, getBucket 1, 1⟩],
         edges := stB.edges ++
           [⟨mkId (st.node_counter + 1), last_true, some ("Yes".data)⟩,
            ⟨last_true, mkId (stB.node_counter + 1), none⟩,
            ⟨mkId (st.node_counter + 1), mkId (stB.node_counter + 1),
              some ("No".data)⟩],
         node_counter := stB.node_counter + 1 }) := by
  obtain ⟨hI1, hX1, hV1, hE1, hC1⟩ :=
    step_node_edge (condLabel test) ("decision".data)
      (calculateComplexity (.ifStmt test e body [])) none hInv hPrev hEV hCov
  obtain ⟨hI2, hX2, hV2, hE2, hC2⟩ :=
    processBody_ok body _ _ hI1 hV1 hE1 hC1
  have hI2' : Inv stB := by rw [hbody] at hI2; exact hI2
  have hV2' : ValidId last_true stB := by rw [hbody] at hV2; exact hV2
  constructor
  · exact addNode_nodes st (condLabel test) ("decision".data) _
  · simp only [processStmt]
    rw [hbody]
    show (_, addEdge _ _ _ _) = _
    rw [resolveId_eq hI2' hV2']
    simp [addNode, addEdge]

/-- Witness for C1 (amended): the concrete conditional `if x: y = 1`
processed from the start node. -/
theorem C1_if_no_else_witness :
    processStmt (.ifStmt ("x".data) 0 [.other ("y = 1".data) 0] [])
        ("node_1".data) startState =
      ("node_4".data,
       ⟨[⟨"node_1".data, "Start".data, "start".data, "low".data, 1⟩,
         ⟨"node_2".data, "Is x?".data, "decision".data, "low".data, 2⟩,
         ⟨"node_3".data, "y = 1".data, "process".data, "low".data, 1⟩,
         ⟨"node_4".data, "End If".data, "merge".data, "low".data, 1⟩],
        [⟨"node_1".data, "node_2".data, none⟩,
         ⟨"node_2".data, "node_3".data, none⟩,
         ⟨"node_2".data, "node_3".data, some ("Yes".data)⟩,
         ⟨"node_3".data, "node_4".data, none⟩,
         ⟨"node_2".data, "node_4".data, some ("No".data)⟩], 4⟩) := by
  have h := (C1_if_no_else ("x".data) 0 [.other ("y = 1".data) 0] ("node_1".data)
    startState ("node_3".data)
    ⟨[⟨"node_1".data, "Start".data, "start".data, "low".data, 1⟩,
      ⟨"node_2".data, "Is x?".data, "decision".data, "low".data, 2⟩,
      ⟨"node_3".data, "y = 1".data, "process".data, "low".data, 1⟩],
     [⟨"node_1".data, "node_2".data, none⟩,
      ⟨"node_2".data, "node_3".data, none⟩], 3⟩
    Inv_startState (by exact ⟨1, le_refl _, le_refl _, rfl⟩)
    EdgesValid_startState Covered_startState (by decide)).2
  exact h.trans (by decide)

/-! ### C6: the heuristic scorer -/

/-- Modelled from the spec's words for C6 ("the number of occurrences of
that keyword in the line matched as a whole word"): an occurrence with no
word character immediately adjacent on either side. -/
def specWholeWordMatchAt (kw s : Str) (i : Nat) : Bool :=
  matchesAt kw s i && !(if i = 0 then false else wordAt s (i - 1)) &&
    !(wordAt s (i + kw.length))

/-- Modelled from the spec's words for C6: the whole-word occurrence count. -/
def specWholeWordCount (kw s : Str) : Nat :=
  ((List.range (s.length + 1)).filter (fun i => specWholeWordMatchAt kw s i)).length

/-- Modelled from the spec's words for C6: `1` plus the whole-word
occurrence count of each keyword. -/
def specHeuristic (line : Str) : Int :=
  heuristicKeywords.foldl (fun score kw => score + (specWholeWordCount kw line : Int)) 1

/-- C6 counterexample: on `"a && b"` the spec's whole-word reading counts
the `&&` operator once (score 2), but the code's pattern
`r'\b&&\b'` requires a word character on both sides of `&&`, so the code
scores the line 1. -/
theorem C6_counterexample :
    calculateComplexityHeuristic ("a && b".data) = 1 ∧
    specHeuristic ("a && b".data) = 2 ∧
    calculateComplexityHeuristic ("a&&b".data) = 2 := by decide

theorem foldl_add_counts (f : Str → Int) (l : List Str) (init : Int) :
    l.foldl (fun sc kw => sc + f kw) init = init + (l.map f).sum := by
  induction l generalizing init with
  | nil => simp
  | cons a as ih =>
    simp only [List.foldl_cons, List.map_cons, List.sum_cons, ih]
    ring

/-- C6 amended: the heuristic score is `1` plus, for each keyword in the
fixed set, the number of offsets where the case-insensitive pattern
`\b<kw>\b` matches; for the word keywords this is whole-word counting,
but for `&&` and `||` the `\b` anchors demand a word character immediately
on both sides (so spaced operators count 0, `a&&b` counts 1); the result
is always ≥ 1. -/
theorem C6_heuristic_score (line : Str) :
    calculateComplexityHeuristic line =
      1 + ((heuristicKeywords.map fun kw => (countKw kw line : Int)).sum) ∧
    1 ≤ calculateComplexityHeuristic line ∧
    countKw ("&&".data) ("x || y".data) = 0 ∧
    countKw ("||".data) ("x||y".data) = 1 ∧
    countKw ("if".data) ("If x:".data) = 1 ∧
    countKw ("if".data) ("elif x:".data) = 0 := by
  have hsum : calculateComplexityHeuristic line =
      1 + ((heuristicKeywords.map fun kw => (countKw kw line : Int)).sum) := by
    simpa [calculateComplexityHeuristic] using
      foldl_add_counts (fun kw => (countKw kw line : Int)) heuristicKeywords 1
  refine ⟨hsum, ?_, by decide, by decide, by decide, by decide⟩
  rw [hsum]
  have hnn : 0 ≤ ((heuristicKeywords.map fun kw => (countKw kw line : Int)).sum) := by
    apply List.sum_nonneg
    intro x hx
    simp only [List.mem_map] at hx
    obtain ⟨kw, _, rfl⟩ := hx
    exact Int.natCast_nonneg _
  omega

/-! ### C7: label truncation -/

/-- C7 counterexample: a conditional whose test renders to 30 characters
yields the decision label `Is <30 chars>?` of length 34 — not truncated to
30 and not ellipsis-suffixed. -/
theorem C7_counterexample :
    ∃ n ∈ (buildFlowchart
        (.ok [.ifStmt ("aaaaaaaaaaaaaaaaaaaaaaaaaaaaaa".data) 0
          [.other ("b = 1".data) 0] []]) (fun _ => none)).nodes,
      30 < n.label.length := by decide

/-- C7 amended: the generic-statement labels of both builders are
truncated to at most 30 characters (ellipsis-suffixed when the source
exceeds 30) and the fallback decision labels are clipped to at most 30
without ellipsis; but the structured builder's decision (`Is <cond>?`),
loop (`Loop <cond>`) and return (`Return <expr>`) labels are built from
the untruncated expression text and may exceed 30 characters. -/
theorem C7_label_truncation :
    (∀ s : Str, (truncate30 s).length ≤ 30) ∧
    (∀ s : Str, 30 < s.length → truncate30 s = s.take 27 ++ "...".data) ∧
    (∀ line : Str, (clipLabel line).length ≤ 30) ∧
    (∀ test : Str, (condLabel test).length = test.length + 4) ∧
    (∀ test : Str, (whileLabel test).length = test.length + 5) ∧
    (∀ v : Str, (returnLabel (some v)).length = v.length + 7) := by
  refine ⟨?_, ?_, ?_, ?_, ?_, ?_⟩
  · intro s
    unfold truncate30
    split
    · simp only [List.length_append, List.length_take]
      simp
    · omega
  · intro s h
    simp [truncate30, h]
  · intro line
    simp only [clipLabel, List.length_take]
    omega
  · intro test
    simp [condLabel, List.length_append]
  · intro test
    simp [whileLabel, List.length_append]
  · intro v
    simp [returnLabel, List.length_append]

/-- Witness for C7 (amended) at a 31-character text. -/
theorem C7_label_truncation_witness :
    truncate30 ("aaaaaaaaaaaaaaaaaaaaaaaaaaaaaaa".data) =
      ("aaaaaaaaaaaaaaaaaaaaaaaaaaaaaaa".data).take 27 ++ "...".data ∧
    (truncate30 ("aaaaaaaaaaaaaaaaaaaaaaaaaaaaaaa".data)).length ≤ 30 ∧
    (condLabel ("aaaaaaaaaaaaaaaaaaaaaaaaaaaaaa".data)).length = 34 :=
  ⟨C7_label_truncation.2.1 _ (by decide),
   C7_label_truncation.1 _,
   (C7_label_truncation.2.2.2.1 _).trans (by decide)⟩

/-! ### C8: fallback per-line score resolution -/

/-- C8 counterexample: for the fallback input `"return 5"` with the
external map `{"return 5" ↦ 9}`, the node built for the line carries
score 1 (the `return` branch ignores `line_score`), not the map's 9. -/
theorem C8_counterexample :
    (buildFlowchart (.synErr ("return 5".data))
        (fun s => if s = "return 5".data then some 9 else none)).nodes[1]? =
      some ⟨"node_2".data, "return 5".data, "end".data, "low".data, 1⟩ ∧
    (fun s : Str => if s = "return 5".data then some (9 : Int) else none)
      ("return 5".data) = some 9 := by decide

/-- C8 amended: for every non-skipped line the fallback builder appends
exactly one node; if the (stripped) line does not start with `return` its
score is the external map's value for the exact stripped text when
present, else the heuristic score; if it starts with `return` the resolved
`line_score` is discarded and the node carries score 1. -/
theorem C8_line_score (ai : Str → Option Int) (prev : Str) (st : BuilderState)
    (rawLine : Str) (h1 : stripPy rawLine ≠ [])
    (h2 : isCommentLine (stripPy rawLine) = false) :
    ∃ n, (regexLine ai (prev, st) rawLine).2.nodes = st.nodes ++ [n] ∧
      n.complexity_score =
        if startsWith ("return".data) (stripPy rawLine) = true then 1
        else (ai (stripPy rawLine)).getD
          (calculateComplexityHeuristic (stripPy rawLine)) := by
  simp only [regexLine]
  split
  · rename_i hskip
    simp only [Bool.or_eq_true, decide_eq_true_eq] at hskip
    rcases hskip with h | h
    · exact absurd h h1
    · rw [h] at h2
      exact absurd h2 (by simp)
  · split
    · rename_i hcond
      refine ⟨_, rfl, ?_⟩
      simp [not_return_of_cond _ hcond]
    · split
      · rename_i hloop
        refine ⟨_, rfl, ?_⟩
        simp [not_return_of_loop _ hloop]
      · split
        · rename_i hret
          exact ⟨_, rfl, rfl⟩
        · rename_i hret
          exact ⟨_, rfl, rfl⟩

/-- Witness for C8 (amended): the line `x = 1` with an empty external map
receives its heuristic score. -/
theorem C8_line_score_witness :
    ∃ n, (regexLine (fun _ => none) ("node_1".data, startState)
        ("x = 1".data)).2.nodes = startState.nodes ++ [n] ∧
      n.complexity_score =
        if startsWith ("return".data) (stripPy ("x = 1".data)) = true then 1
        else ((fun _ => none : Str → Option Int) (stripPy ("x = 1".data))).getD
          (calculateComplexityHeuristic (stripPy ("x = 1".data))) :=
  C8_line_score (fun _ => none) ("node_1".data) startState ("x = 1".data)
    (by decide) (by decide)

end Flow
